import Mathlib

/-!
Verification of the bundle build/install/resolve/fetch subsystem of
owmeta (`owmeta/bundle.py`), via a shallow embedding of the relevant
functions.  Machine integers are modelled as `Nat`/`Int`, Python
exceptions as an explicit error type threaded through `Except`, and the
file system as explicit state.
-/

deriving instance DecidableEq for Except

namespace Owmeta

/-- Python exceptions that the embedded code can raise.  Each constructor
corresponds to a concrete exception class observed in `bundle.py` or in the
Python standard library functions it calls. -/
inductive PyErr where
  /-- `BundleNotFound` -/
  | bundleNotFound
  /-- `OSError` (other than the tolerated `EEXIST`/`ENOENT` cases) -/
  | osError
  /-- `FileNotFoundError`, e.g. from `shutil.rmtree` on a missing directory -/
  | fileNotFound
  /-- `KeyError`, e.g. from `set.remove` of an absent element -/
  | keyError
  /-- `TypeError`, e.g. `str + int` concatenation or hashing an unhashable value -/
  | typeError
  /-- `UnboundLocalError`: reading a local variable before assignment -/
  | unboundLocal
  /-- the installer's `MissingImports(uncovered)` error, carrying the uncovered set -/
  | missingImports (uncovered : List String)
  /-- the `Exception('Included file in bundle does not exist', f)` raised by
  `_select_files` -/
  | missingFile
  /-- `NoBundleLoader` (subclass of `FetchFailed`) -/
  | noBundleLoader
  /-- `LoadFailed` raised by an individual loader -/
  | loadFailed
deriving DecidableEq, Repr

/-! ## Python `int()` parsing (used by version-directory scanning)

`Bundle._get_bundle_directory` calls `int(ent.name)` on each directory
entry.  Python's `int` accepts surrounding whitespace, an optional sign and
decimal digits with single underscores between digits. -/

/-- Characters stripped by Python's `int()` / `str.strip()`. -/
def isPySpace (c : Char) : Bool :=
  c == ' ' || c == '\t' || c == '\n' || c == '\r' || c == '\x0b' || c == '\x0c'

/-- A digit string as accepted by Python's `int()` after sign removal:
nonempty, starts and ends with a digit, underscores only singly and between
digits. -/
def pyDigitsOk : List Char → Bool
  | [] => false
  | [c] => c.isDigit
  | c :: c2 :: cs =>
    if c.isDigit then
      if c2 == '_' then
        -- an underscore must sit between digits: what follows it must itself
        -- be a well-formed digit string
        pyDigitsOk cs
      else pyDigitsOk (c2 :: cs)
    else false

/-- Numeric value of a digit-and-underscore string. -/
def pyDigitsVal (cs : List Char) : Nat :=
  cs.foldl (fun acc c => if c.isDigit then acc * 10 + (c.toNat - 48) else acc) 0

/-- Embedding of Python's `int(s)`: `none` models a raised `ValueError`. -/
def pyInt (s : String) : Option Int :=
  let cs := (s.toList.dropWhile isPySpace).reverse.dropWhile isPySpace |>.reverse
  match cs with
  | '-' :: rest => if pyDigitsOk rest then some (-(pyDigitsVal rest : Int)) else none
  | '+' :: rest => if pyDigitsOk rest then some (pyDigitsVal rest : Int) else none
  | rest => if pyDigitsOk rest then some (pyDigitsVal rest : Int) else none

/-! ## C4: version selection (`Bundle._get_bundle_directory`, version `None`) -/

/-- One entry of `os.scandir` on the bundle's id directory. -/
structure DirEnt where
  name : String
  isDir : Bool
deriving DecidableEq, Repr

/-- One iteration of the scan loop of `Bundle._get_bundle_directory`: for a
directory entry that `is_dir()` and whose name parses with `int`, keep the
parsed value when strictly greater than the accumulator; a `ValueError`
from `int` is swallowed. -/
def latestStep (latest : Int) (e : DirEnt) : Int :=
  if e.isDir then
    match pyInt e.name with
    | some vn => if vn > latest then vn else latest
    | none => latest
  else latest

/-- The scan loop of `Bundle._get_bundle_directory`, starting from
`latest_version = 0`. -/
def latestVersion (es : List DirEnt) : Int :=
  es.foldl latestStep 0

/-- Embedding of `Bundle._get_bundle_directory` for a bundle with no explicit
version.  `listing` is the result of `scandir` on the bundle's id directory
(`none` models `ENOENT`).  Returns the selected version number; the returned
bundle directory is `bundle_directory(bundles_directory, ident, version)`.
The final `exists(res)` check succeeds iff some entry of the directory is
named `str(version)`. -/
def getBundleDirectoryLatest (listing : Option (List DirEnt)) : Except PyErr Nat :=
  match listing with
  | none => .error .bundleNotFound
  | some es =>
    let version := latestVersion es
    if version ≤ 0 then .error .bundleNotFound
    else if es.any (fun e => e.name == toString version) then .ok version.toNat
    else .error .bundleNotFound

/-! ## C5: `Bundle.resolve` fallback to remotes

The local variable `remotes` of `Bundle.resolve` is only assigned under
`if self.remotes:`; reading it while unbound raises `UnboundLocalError`.
That variable is modelled with an `Option`. -/

/-- Embedding of `Bundle.resolve`.  `localResult` is the outcome of
`self._get_bundle_directory()`; only `BundleNotFound` is caught.
`owmDirExists` models `exists(DEFAULT_OWM_DIR)` and `retrieved` the remotes
that `retrieve_remotes` would yield; `fetchResult` models constructing a
`Fetcher` over the given remotes and calling it. -/
def bundleResolve (localResult : Except PyErr String) (selfRemotes : List String)
    (owmDirExists : Bool) (retrieved : List String)
    (fetchResult : List String → Except PyErr String) : Except PyErr String :=
  match localResult with
  | .ok d => .ok d
  | .error .bundleNotFound =>
    -- `remotes` starts out unbound; `if self.remotes: remotes = self.remotes`
    let remotesVar : Option (List String) :=
      if selfRemotes.isEmpty then none else some selfRemotes
    -- `if not remotes and exists(DEFAULT_OWM_DIR):` reads `remotes`
    match remotesVar with
    | none => .error .unboundLocal
    | some rs =>
      let rs2 := if rs.isEmpty && owmDirExists then retrieved else rs
      -- `if remotes: ... Fetcher ... else: raise`
      if rs2.isEmpty then .error .bundleNotFound else fetchResult rs2
  | .error e => .error e

/-! ## C9: `Remote.__eq__` / `Remote.__hash__`

`Remote.__hash__` computes `hash((self.name, self.accessor_configs))` where
`accessor_configs` is a Python `list`.  Python hashing is modelled on a
small value universe: strings and ints are hashable, a tuple is hashable
iff all its elements are, and a list is never hashable (`TypeError`).
The numeric hash values of the hashable cases are modelled abstractly (the
concrete CPython values are an implementation detail); only totality and
the `TypeError` behaviour matter here. -/

inductive PyObj where
  | pstr (s : String)
  | pint (n : Int)
  | plist (xs : List PyObj)
  | ptuple (xs : List PyObj)

mutual

/-- Embedding of Python's `hash()` builtin on the modelled value universe. -/
def pyHashObj : PyObj → Except PyErr Nat
  | .pstr s => .ok s.length
  | .pint n => .ok n.natAbs
  | .plist _ => .error .typeError
  | .ptuple xs =>
    match pyHashElems xs with
    | .error e => .error e
    | .ok hs => .ok (hs.foldl (fun a h => a * 31 + h) 7)

/-- Hash every element of a tuple, propagating the first `TypeError`. -/
def pyHashElems : List PyObj → Except PyErr (List Nat)
  | [] => .ok []
  | x :: xs =>
    match pyHashObj x with
    | .error e => .error e
    | .ok h =>
      match pyHashElems xs with
      | .error e => .error e
      | .ok hs => .ok (h :: hs)

end

/-- Embedding of the `Remote` value: a name plus the ordered list of accessor
configs (modelled by their URLs, the only accessor kind in the source). -/
structure RemoteV where
  name : String
  accessor_configs : List String
deriving DecidableEq, Repr

/-- `Remote.__eq__`: structural over name and accessor-config list. -/
def remoteEq (r1 r2 : RemoteV) : Bool :=
  r1.name == r2.name && r1.accessor_configs == r2.accessor_configs

/-- `Remote.__hash__`: `hash((self.name, self.accessor_configs))`, a tuple
whose second element is a list. -/
def remoteHash (r : RemoteV) : Except PyErr Nat :=
  pyHashObj (.ptuple [.pstr r.name, .plist (r.accessor_configs.map .pstr)])

/-! ## C6: pattern and include matchers

`GlobURIPattern.__init__` turns a glob into a regular expression with the
plain string replacements given below, compiles it, and
`RegexURIPattern.__call__` tests it with `re.match` (anchored at the start
of the string only).  The fragment of Python regex syntax reachable from
glob translation (literals, the dot, postfix star and question mark,
character classes) is embedded with its own small matcher. -/

/-- Does the second character list start with the first? -/
def startsWithL : List Char → List Char → Bool
  | [], _ => true
  | _ :: _, [] => false
  | p :: ps, c :: cs => p == c && startsWithL ps cs

/-- Python's `str.replace(pat, rep)` with explicit fuel (one unit per
consumed character): replace every non-overlapping occurrence of `pat`
(nonempty here), scanning left to right. -/
def replaceAllF (pat rep : List Char) : Nat → List Char → List Char
  | 0, s => s
  | _, [] => []
  | fuel + 1, c :: cs =>
    if !pat.isEmpty && startsWithL pat (c :: cs) then
      rep ++ replaceAllF pat rep fuel (List.drop pat.length (c :: cs))
    else c :: replaceAllF pat rep fuel cs

/-- Python's `str.replace(pat, rep)`. -/
def replaceAll (pat rep s : List Char) : List Char :=
  replaceAllF pat rep s.length s

/-- The glob-to-regex translation of `GlobURIPattern.__init__`: the three
string replacements, applied in order. -/
def globTranslate (pattern : String) : String :=
  let s1 := replaceAll ['*'] ['.', '*'] pattern.toList
  let s2 := replaceAll ['?'] ['.', '?'] s1
  let s3 := replaceAll ['[', '!'] ['[', '^'] s2
  String.mk s3

/-- An atom of the embedded regex fragment. -/
inductive RAtom where
  /-- a literal character -/
  | lit (c : Char)
  /-- the regex dot: any character except a newline -/
  | dot
  /-- a character class; `neg` marks a leading caret -/
  | cls (neg : Bool) (items : List (Char × Char))
deriving DecidableEq, Repr

/-- The quantifier attached to an atom: exactly one occurrence, a Kleene
star, or the `?` zero-or-one quantifier. -/
inductive RQuant where
  | one
  | star
  | opt
deriving DecidableEq, Repr

/-- The embedded regex: a sequence of quantified atoms. -/
abbrev RSeq := List (RAtom × RQuant)

/-- Parse the body of a character class, after the opening bracket and the
optional caret: a list of single characters and `a-z` ranges, up to the
closing bracket.  A single character stands for the degenerate range. -/
def parseClsBody (fuel : Nat) (cs : List Char) : Option (List (Char × Char) × List Char) :=
  match fuel, cs with
  | 0, _ => none
  | _, [] => none
  | fuel + 1, c :: rest =>
    if c == ']' then some ([], rest)
    else
      match rest with
      | '-' :: hi :: rest2 =>
        if hi == ']' then
          -- a trailing dash is a literal dash
          match parseClsBody fuel (hi :: rest2) with
          | some (items, rem) => some ((c, c) :: ('-', '-') :: items, rem)
          | none => none
        else
          match parseClsBody fuel rest2 with
          | some (items, rem) => some ((c, hi) :: items, rem)
          | none => none
      | _ =>
        match parseClsBody fuel rest with
        | some (items, rem) => some ((c, c) :: items, rem)
        | none => none

/-- Characters that keep a special regex meaning this embedding does not
model; a pattern containing one of them outside a class is rejected, which
models a compile-time failure or unsupported construct. -/
def unsupportedRegexChar (c : Char) : Bool :=
  c == '\\' || c == '(' || c == ')' || c == '|' || c == '+' ||
  c == '^' || c == '$' || c == '\x7b' || c == '\x7d'

/-- Parse one atom from the front of the character stream. -/
def parseAtom (fuel : Nat) (cs : List Char) : Option (RAtom × List Char) :=
  match cs with
  | [] => none
  | c :: rest =>
    if c == '.' then some (.dot, rest)
    else if c == '[' then
      match rest with
      | '^' :: rest2 =>
        match parseClsBody fuel rest2 with
        | some (items, rem) => some (.cls true items, rem)
        | none => none
      | _ =>
        match parseClsBody fuel rest with
        | some (items, rem) => some (.cls false items, rem)
        | none => none
    else if c == '*' || c == '?' || unsupportedRegexChar c then none
    else some (.lit c, rest)

/-- Parse a whole pattern into a sequence of quantified atoms. -/
def parseSeqF (fuel : Nat) (cs : List Char) : Option RSeq :=
  match fuel, cs with
  | _, [] => some []
  | 0, _ => none
  | fuel + 1, cs =>
    match parseAtom fuel cs with
    | none => none
    | some (a, rest) =>
      match rest with
      | '*' :: rest2 =>
        match parseSeqF fuel rest2 with
        | some ps => some ((a, .star) :: ps)
        | none => none
      | '?' :: rest2 =>
        match parseSeqF fuel rest2 with
        | some ps => some ((a, .opt) :: ps)
        | none => none
      | _ =>
        match parseSeqF fuel rest with
        | some ps => some ((a, .one) :: ps)
        | none => none

/-- Embedding of `re.compile` on the regex fragment produced by glob
translation: `none` models a failed or unsupported compile. -/
def compileRegex (s : String) : Option RSeq :=
  parseSeqF (s.length + 1) s.toList

/-- Does an atom match one character?  The dot excludes the newline, as in
Python's default (non-DOTALL) mode. -/
def atomMatches : RAtom → Char → Bool
  | .lit c, x => x == c
  | .dot, x => x ≠ '\n'
  | .cls neg items, x =>
    let inCls := items.any (fun i => i.1 ≤ x && x ≤ i.2)
    if neg then !inCls else inCls

/-- Whole-string matching of the quantified-atom sequence against a list of
characters, with explicit fuel (every recursive call shrinks the combined
length of the pattern and the input, so fuel beyond that sum never runs
out). -/
def rseqMatchesF : Nat → RSeq → List Char → Bool
  | 0, _, _ => false
  | fuel + 1, ps, cs =>
    match ps, cs with
    | [], [] => true
    | [], _ :: _ => false
    | (_, .one) :: _, [] => false
    | (a, .one) :: ps2, c :: cs2 => atomMatches a c && rseqMatchesF fuel ps2 cs2
    | (a, .opt) :: ps2, cs =>
      rseqMatchesF fuel ps2 cs ||
        (match cs with
         | [] => false
         | c :: cs2 => atomMatches a c && rseqMatchesF fuel ps2 cs2)
    | (a, .star) :: ps2, cs =>
      rseqMatchesF fuel ps2 cs ||
        (match cs with
         | [] => false
         | c :: cs2 => atomMatches a c && rseqMatchesF fuel ((a, .star) :: ps2) cs2)

/-- Whole-string matching of the quantified-atom sequence against a list of
characters. -/
def rseqMatches (ps : RSeq) (cs : List Char) : Bool :=
  rseqMatchesF (ps.length + cs.length + 1) ps cs

/-- Embedding of the truthiness of `re.match(pattern, s)`: the pattern is
anchored at the start of `s` only, so it holds iff some take of `s`
matches the whole pattern. -/
def pyReMatch (ps : RSeq) (s : String) : Bool :=
  (List.range (s.length + 1)).any (fun n => rseqMatches ps (s.toList.take n))

/-- Embedding of `GlobURIPattern(pattern)(uri)`: translate the glob,
compile it, and test with `re.match`.  `none` models a compile failure. -/
def globURIPatternMatches (pattern uri : String) : Option Bool :=
  (compileRegex (globTranslate pattern)).map (fun ps => pyReMatch ps uri)

/-- Python's `str.strip()`. -/
def pyStrip (s : String) : String :=
  String.mk ((s.toList.dropWhile isPySpace).reverse.dropWhile isPySpace |>.reverse)

/-- Embedding of `URIIncludeFunc(include)(uri)`: the configured value is
stripped at construction; the call tests equality. -/
def uriIncludeFuncMatches (inc uri : String) : Bool :=
  uri == pyStrip inc

/-- What claim C6 states the matcher does (for comparison with the code):
translate the glob with the same table except that the question mark
becomes a single arbitrary character, and require the whole identifier to
match the resulting expression. -/
def globMatchesPerClaim (pattern uri : String) : Option Bool :=
  let s1 := replaceAll ['*'] ['.', '*'] pattern.toList
  let s2 := replaceAll ['?'] ['.'] s1
  let s3 := replaceAll ['[', '!'] ['[', '^'] s2
  (compileRegex (String.mk s3)).map (fun ps => rseqMatches ps uri.toList)

/-! ## SHA-224 (`hashlib.sha224`)

The installer hashes graph serializations and source files with
`hashlib.sha224` (`Installer.__init__` sets both `context_hash` and
`file_hash` to it).  Bytes are `Nat` below 256. -/

/-- Right rotation of a 32-bit word. -/
def rotr32 (n x : Nat) : Nat :=
  (x >>> n) ||| ((x <<< (32 - n)) % 4294967296)

/-- SHA-2 `Ch`. -/
def shaCh (e f g : Nat) : Nat := (e &&& f) ^^^ ((4294967295 - e) &&& g)

/-- SHA-2 `Maj`. -/
def shaMaj (a b c : Nat) : Nat := (a &&& b) ^^^ (a &&& c) ^^^ (b &&& c)

/-- SHA-2 big sigma 0. -/
def shaBSig0 (x : Nat) : Nat := rotr32 2 x ^^^ rotr32 13 x ^^^ rotr32 22 x

/-- SHA-2 big sigma 1. -/
def shaBSig1 (x : Nat) : Nat := rotr32 6 x ^^^ rotr32 11 x ^^^ rotr32 25 x

/-- SHA-2 small sigma 0. -/
def shaSSig0 (x : Nat) : Nat := rotr32 7 x ^^^ rotr32 18 x ^^^ (x >>> 3)

/-- SHA-2 small sigma 1. -/
def shaSSig1 (x : Nat) : Nat := rotr32 17 x ^^^ rotr32 19 x ^^^ (x >>> 10)

/-- The round-constant table of SHA-256 (FIPS 180-4), written in decimal. -/
def sha2K : List Nat :=
  [1116352408, 1899447441, 3049323471, 3921009573, 961987163,
   1508970993, 2453635748, 2870763221, 3624381080, 310598401,
   607225278, 1426881987, 1925078388, 2162078206, 2614888103,
   3248222580, 3835390401, 4022224774, 264347078, 604807628,
   770255983, 1249150122, 1555081692, 1996064986, 2554220882,
   2821834349, 2952996808, 3210313671, 3336571891, 3584528711,
   113926993, 338241895, 666307205, 773529912, 1294757372,
   1396182291, 1695183700, 1986661051, 2177026350, 2456956037,
   2730485921, 2820302411, 3259730800, 3345764771, 3516065817,
   3600352804, 4094571909, 275423344, 430227734, 506948616,
   659060556, 883997877, 958139571, 1322822218, 1537002063,
   1747873779, 1955562222, 2024104815, 2227730452, 2361852424,
   2428436474, 2756734187, 3204031479, 3329325298]

/-- The initial hash state of SHA-224 (FIPS 180-4), written in decimal. -/
def sha224H0 : List Nat :=
  [3238371032, 914150663, 812702999, 4144912697,
   4290775857, 1750603025, 1694076839, 3204075428]

/-- The 8-byte big-endian length field of the SHA-2 padding. -/
def shaLenBytes (n : Nat) : List Nat :=
  ((List.range 8).reverse).map (fun i => (n >>> (8 * i)) % 256)

/-- SHA-2 message padding: a `0x80` byte, zeros to 56 mod 64, then the bit
length. -/
def shaPad (m : List Nat) : List Nat :=
  let L := m.length
  let zeros := (120 - ((L + 1) % 64)) % 64
  m ++ [128] ++ List.replicate zeros 0 ++ shaLenBytes (8 * L)

/-- Big-endian 32-bit words from a byte list. -/
def bytesToWords : List Nat → List Nat
  | a :: b :: c :: d :: rest => (((a * 256 + b) * 256 + c) * 256 + d) :: bytesToWords rest
  | _ => []

/-- Big-endian bytes of a 32-bit word. -/
def wordBytes (w : Nat) : List Nat :=
  [w / 16777216 % 256, w / 65536 % 256, w / 256 % 256, w % 256]

/-- One message-schedule extension step: append
`ssig1 W[t-2] + W[t-7] + ssig0 W[t-15] + W[t-16]`. -/
def shaExtendOnce (w : List Nat) : List Nat :=
  let t := w.length
  w ++ [(shaSSig1 (w.getD (t - 2) 0) + w.getD (t - 7) 0 +
         shaSSig0 (w.getD (t - 15) 0) + w.getD (t - 16) 0) % 4294967296]

/-- Extend the 16 message words to 64. -/
def shaSchedule (w : List Nat) : List Nat :=
  (List.range 48).foldl (fun acc _ => shaExtendOnce acc) w

/-- One compression round on the state `[a,b,c,d,e,f,g,h]`. -/
def shaRound (st : List Nat) (kw : Nat × Nat) : List Nat :=
  match st with
  | [a, b, c, d, e, f, g, h] =>
    let t1 := (h + shaBSig1 e + shaCh e f g + kw.1 + kw.2) % 4294967296
    let t2 := (shaBSig0 a + shaMaj a b c) % 4294967296
    [(t1 + t2) % 4294967296, a, b, c, (d + t1) % 4294967296, e, f, g]
  | _ => st

/-- Process one 64-byte block. -/
def shaBlock (hs : List Nat) (block : List Nat) : List Nat :=
  let w := shaSchedule (bytesToWords block)
  let st := (sha2K.zip w).foldl shaRound hs
  (hs.zip st).map (fun xy => (xy.1 + xy.2) % 4294967296)

/-- Split a byte list into 64-byte chunks. -/
def chunks64 (fuel : Nat) (l : List Nat) : List (List Nat) :=
  match fuel, l with
  | 0, _ => []
  | _, [] => []
  | fuel + 1, l => l.take 64 :: chunks64 fuel (l.drop 64)

/-- `hashlib.sha224(m).digest()`: the 28-byte SHA-224 digest. -/
def sha224 (m : List Nat) : List Nat :=
  let padded := shaPad m
  let final := (chunks64 padded.length padded).foldl shaBlock sha224H0
  (final.take 7).foldr (fun w acc => wordBytes w ++ acc) []

/-- Lower-case hex digit. -/
def hexChar (n : Nat) : Char :=
  if n < 10 then Char.ofNat (48 + n) else Char.ofNat (87 + n)

/-- Lower-case hex string of a byte list, as `hexdigest()` produces. -/
def hexStr (bs : List Nat) : String :=
  String.mk (bs.foldr (fun b acc => hexChar (b / 16) :: hexChar (b % 16) :: acc) [])

/-! ## Context selection and the graphs index/hashes serialization
(C3, C10: `_select_contexts`, `Installer._write_context_data`) -/

/-- UTF-8 encoding of one character. -/
def utf8Bytes (c : Char) : List Nat :=
  let n := c.toNat
  if n < 128 then [n]
  else if n < 2048 then [192 + n / 64, 128 + n % 64]
  else if n < 65536 then [224 + n / 4096, 128 + (n / 64) % 64, 128 + n % 64]
  else [240 + n / 262144, 128 + (n / 4096) % 64, 128 + (n / 64) % 64, 128 + n % 64]

/-- `s.encode('UTF-8')` as a byte list. -/
def strBytes (s : String) : List Nat :=
  s.toList.foldr (fun c acc => utf8Bytes c ++ acc) []

/-- A bundle descriptor as far as context selection is concerned: the
compiled include functions and patterns.  (`Descriptor.make` compiles glob
patterns at construction time, so patterns are carried compiled.) -/
structure CtxDescriptor where
  includes : List String
  patterns : List RSeq

/-- A context of the source graph store: its identifier and its triples,
each triple given as an N-Triples line without the trailing newline.  A
store is enumerated as a list, reflecting `graph.contexts()` order. -/
structure StoreCtx where
  ident : String
  triples : List String
deriving DecidableEq

/-- Embedding of `_select_contexts`: for each context of the store, in
enumeration order, yield it once if some include matches and once more if
some pattern matches. -/
def selectContexts (d : CtxDescriptor) (store : List StoreCtx) : List StoreCtx :=
  store.foldr
    (fun ctx acc =>
      (if d.includes.any (fun inc => uriIncludeFuncMatches inc ctx.ident) then [ctx] else []) ++
      (if d.patterns.any (fun ps => pyReMatch ps ctx.ident) then [ctx] else []) ++
      acc)
    []

/-- Modelled from the spec: `write_canonical_to_file` (module
`graph_serialization`, not part of the sources under study) writes "a
canonicalized serialization ... so that semantically identical graphs
always hash identically regardless of triple insertion order".  It is
modelled as the sorted N-Triples lines, each terminated by a newline. -/
def canonicalSerialization (triples : List String) : List Nat :=
  (triples.insertionSort (· ≤ ·)).foldr (fun t acc => strBytes t ++ [10] ++ acc) []

/-- The digest of one context's canonical serialization
(`hash_file(hsh, ctx_fh)` over the temporary canonical file). -/
def contextDigest (triples : List String) : List Nat :=
  sha224 (canonicalSerialization triples)

/-- One record of `graphs/hashes`:
`ctxid \x00 pack('B', digest_size) digest \n`. -/
def graphHashRecord (ctx : StoreCtx) : List Nat :=
  strBytes ctx.ident ++ [0] ++ [28] ++ contextDigest ctx.triples ++ [10]

/-- The graph file name `hsh.hexdigest() + '.nt'`. -/
def graphFileName (triples : List String) : String :=
  hexStr (contextDigest triples) ++ ".nt"

/-- One record of `graphs/index`: `ctxid \x00 filename \n`. -/
def graphIndexRecord (ctx : StoreCtx) : List Nat :=
  strBytes ctx.ident ++ [0] ++ strBytes (graphFileName ctx.triples) ++ [10]

/-- The bytes of `graphs/hashes` written by `_write_context_data`: one
record per selected context, in selection order. -/
def graphsHashesBytes (d : CtxDescriptor) (store : List StoreCtx) : List Nat :=
  (selectContexts d store).foldr (fun c acc => graphHashRecord c ++ acc) []

/-- The bytes of `graphs/index` written by `_write_context_data`: one
record per selected context, in selection order. -/
def graphsIndexBytes (d : CtxDescriptor) (store : List StoreCtx) : List Nat :=
  (selectContexts d store).foldr (fun c acc => graphIndexRecord c ++ acc) []

/-- A source file for `_write_file_hashes`: its relative name and contents. -/
structure SrcFile where
  name : String
  contents : List Nat
deriving DecidableEq

/-- The bytes of `files/hashes` written by `_write_file_hashes`: for every
selected file, `fname \x00 pack('B', digest_size) digest \n`, in selection
order. -/
def filesHashesBytes (files : List SrcFile) : List Nat :=
  files.foldr
    (fun f acc => strBytes f.name ++ [0] ++ [28] ++ sha224 f.contents ++ [10] ++ acc)
    []

/-! ## C1: dependency-closure check
(`Installer._write_context_data`, `Installer._cover_with_dependencies`)

The imports graph is given as a list of edges (importer, imported);
context-identifier sets are lists without duplicates. -/

/-- One expansion step of the imports closure: add the targets of edges
whose source is already in the set. -/
def importsStep (edges : List (String × String)) (s : List String) : List String :=
  s ++ ((edges.filter (fun e => s.contains e.1 && !(s.contains e.2))).map Prod.snd).dedup

/-- Modelled from the spec: `transitive_lookup` (from the external
`yarom.rdfUtils`) computes "the full set of contexts reachable by
following import edges from a starting set", accumulated onto the
previously seen set.  Iterating one step per edge reaches the fixpoint. -/
def transitiveLookup (edges : List (String × String)) (start : String)
    (seen : List String) : List String :=
  (List.range (edges.length + 1)).foldl (fun acc _ => importsStep edges acc)
    (seen ++ [start])

/-- The `imported_contexts` accumulation of `_write_context_data`: fold
`transitive_lookup` over the included context ids, threading the seen set. -/
def importedContexts (edges : List (String × String)) (includedIds : List String) :
    List String :=
  includedIds.foldl (fun acc ctxid => transitiveLookup edges ctxid acc) []

/-- The inner loop of `_cover_with_dependencies` over one dependency
bundle's contexts: `uncovered_contexts.remove(URIRef(b))` raises `KeyError`
when `b` is not in the set; after each removal, `break` once the set is
empty. -/
def coverInner (unc : List String) : List String → Except PyErr (List String)
  | [] => .ok unc
  | b :: bs =>
    if unc.contains b then
      let unc2 := unc.erase b
      if unc2.isEmpty then .ok unc2 else coverInner unc2 bs
    else .error .keyError

/-- Embedding of `Installer._cover_with_dependencies`: each dependency is
given by the context-id list of its resolved bundle; the inner `break`
only leaves that dependency's loop, so the outer loop still visits the
remaining dependencies. -/
def coverWithDependencies (unc : List String) : List (List String) → Except PyErr (List String)
  | [] => .ok unc
  | d :: ds =>
    match coverInner unc d with
    | .ok unc2 => coverWithDependencies unc2 ds
    | .error e => .error e

/-- The dependency-closure check at the end of `_write_context_data` (for a
configured imports context): accumulate the imports closure of the included
contexts, subtract the included ids, run `_cover_with_dependencies`, and
raise `MissingImports` when contexts remain. -/
def closureCheck (includedIds : List String) (edges : List (String × String))
    (deps : List (List String)) : Except PyErr Unit :=
  let imported := importedContexts edges includedIds
  let uncovered := (imported.filter (fun c => !(includedIds.contains c))).dedup
  match coverWithDependencies uncovered deps with
  | .error e => .error e
  | .ok unc => if unc.isEmpty then .ok () else .error (.missingImports unc)

/-- What claim C1 states the check does (for comparison with the code):
the uncovered set after subtracting the bundle's contexts and every
dependency's contexts from the imports closure. -/
def uncoveredPerClaim (includedIds : List String) (edges : List (String × String))
    (deps : List (List String)) : List String :=
  ((importedContexts edges includedIds).filter
    (fun c => !(includedIds.contains c) && !(deps.any (fun d => d.contains c)))).dedup

/-- What claim C1 states the outcome is: `MissingImports` carrying exactly
the uncovered remainder when it is nonempty, success otherwise. -/
def closureCheckPerClaim (includedIds : List String) (edges : List (String × String))
    (deps : List (List String)) : Except PyErr Unit :=
  let unc := uncoveredPerClaim includedIds edges deps
  if unc.isEmpty then .ok () else .error (.missingImports unc)

/-! ## C2 and C8: the install driver, failure cleanup and write order
(`Installer.install`, `_cleanup_failed_install`, `_install`,
`_set_up_directories`, `_write_manifest`) -/

/-- An artifact written into the staging directory during `_install`, in
the order the code writes them. -/
inductive Artifact where
  /-- the `files/hashes` file -/
  | filesHashesFile
  /-- a source file copied into `files/` -/
  | fileCopy (name : String)
  /-- a canonicalized graph file under `graphs/` -/
  | graphFile (ctx : String)
  /-- one record of `graphs/hashes` -/
  | graphHashRec (ctx : String)
  /-- one record of `graphs/index` -/
  | graphIndexRec (ctx : String)
  /-- the `manifest` file -/
  | manifestFile
deriving DecidableEq, Repr

/-- Where, if anywhere, the install attempt raises: in `makedirs(graphs)`,
in `makedirs(files)`, in `_write_file_hashes`, in `_write_context_data`,
in `_write_manifest`, or nowhere. -/
inductive FailPoint where
  | atSetupGraphs
  | atSetupFiles
  | atFileHashes
  | atContextData
  | atManifest
  | noFail
deriving DecidableEq, Repr

/-- The exception raised at each failure point: a non-`EEXIST` `OSError`
from `makedirs` or the manifest write, the missing-included-file error from
`_select_files`, or `MissingImports` from the closure check. -/
def injectedError : FailPoint → PyErr
  | .atSetupGraphs => .osError
  | .atSetupFiles => .osError
  | .atFileHashes => .missingFile
  | .atContextData => .missingImports ["http://example.org/ctx"]
  | .atManifest => .osError
  | .noFail => .osError

/-- The staging directory's state: which subdirectories exist, whether the
lock file and manifest exist, and the trace of completed writes. -/
structure IState where
  graphsDir : Bool
  filesDir : Bool
  lockFileExists : Bool
  manifestFile : Bool
  writeTrace : List Artifact
deriving DecidableEq, Repr

/-- Embedding of `Installer._install` and its callees, with a failure
injected at `fp`: create `graphs/` and `files/` (tolerating `EEXIST`),
write the file hashes and copies, write the graph files with their index
and hash records, and write the manifest last. -/
def runInstallSteps (fp : FailPoint) (files ctxs : List String) (st : IState) :
    Option PyErr × IState :=
  if fp = .atSetupGraphs then (some (injectedError fp), st) else
  let st1 := { st with graphsDir := true }
  if fp = .atSetupFiles then (some (injectedError fp), st1) else
  let st2 := { st1 with filesDir := true }
  if fp = .atFileHashes then (some (injectedError fp), st2) else
  let st3 := { st2 with writeTrace :=
    (st2.writeTrace ++ [.filesHashesFile] ++ files.map .fileCopy) }
  if fp = .atContextData then (some (injectedError fp), st3) else
  let st4 := { st3 with writeTrace :=
    (st3.writeTrace ++ ctxs.foldr
      (fun c acc => [.graphFile c, .graphHashRec c, .graphIndexRec c] ++ acc) []) }
  if fp = .atManifest then (some (injectedError fp), st4) else
  (none, { st4 with manifestFile := true, writeTrace := st4.writeTrace ++ [.manifestFile] })

/-- Embedding of `Installer._cleanup_failed_install`:
`shutil.rmtree(graphs)` then `shutil.rmtree(files)`; `rmtree` raises
`FileNotFoundError` when the directory does not exist.  The returned state
is the one reached when the cleanup finished or raised. -/
def cleanupFailedInstall (st : IState) : Option PyErr × IState :=
  if st.graphsDir then
    let st1 := { st with graphsDir := false }
    if st1.filesDir then (none, { st1 with filesDir := false })
    else (some .fileNotFound, st1)
  else (some .fileNotFound, st)

/-- Embedding of `Installer.install` from the point where the staging
directory exists and the lock is held: run `_install`; on an exception run
`_cleanup_failed_install` and re-raise — an exception inside the cleanup
itself propagates instead of the original one.  The lock file is created
by acquiring the lock; modelled from the spec: releasing the `file_lock`
lock (module not part of the sources under study) does not remove the lock
file. -/
def installerInstall (fp : FailPoint) (files ctxs : List String) :
    Except PyErr String × IState :=
  let st0 : IState := ⟨false, false, true, false, []⟩
  match runInstallSteps fp files ctxs st0 with
  | (none, st) => (.ok "staging_directory", st)
  | (some e, st) =>
    match cleanupFailedInstall st with
    | (none, st2) => (.error e, st2)
    | (some e2, st2) => (.error e2, st2)

/-! ## C7: `Fetcher.fetch` and `Fetcher._get_bundle_loaders` -/

/-- A loader candidate as `Fetcher.fetch` sees it: whether
`can_load(bundle_name, bundle_version)` claims capability, the versions
`bundle_versions(bundle_name)` lists, and whether `load` succeeds at a
given version (failure models any exception from the loader). -/
structure LoaderM where
  canLoad : Bool
  versions : List Nat
  loadOk : Nat → Bool

/-- Python's `max` on a (nonempty) list of ints, as used for
`max(versions)`. -/
def maxVersions (vs : List Nat) : Nat := vs.foldl max 0

/-- Raising `NoBundleLoader(bundle_name, bundle_version)`: its message
builds `' at version ' + bundle_version` when the version is not `None`,
which for an `int` version raises `TypeError` instead. -/
def raiseNoBundleLoader : Option Nat → PyErr
  | none => .noBundleLoader
  | some _ => .typeError

/-- The candidate loop of `Fetcher.fetch`.  The `bundle_version` variable
is threaded through: when it is `None` and a loader reports no versions,
`BundleNotFound` is raised and caught (try the next candidate); when the
loader has versions, `bundle_version` is assigned `max(versions)` and keeps
that value for all later candidates.  On exhaustion `NoBundleLoader` is
raised. -/
def fetchGo : List LoaderM → Option Nat → Except PyErr Nat
  | [], v => .error (raiseNoBundleLoader v)
  | l :: rest, none =>
    if l.versions.isEmpty then fetchGo rest none
    else
      let m := maxVersions l.versions
      if l.loadOk m then .ok m else fetchGo rest (some m)
  | l :: rest, some n =>
    if l.loadOk n then .ok n else fetchGo rest (some n)

/-- Embedding of `Fetcher.fetch`: enumerate the loaders of all remotes that
claim capability (`_get_bundle_loaders` filters with `can_load`), then try
each in turn.  The returned number is the version whose bundle directory
was populated. -/
def fetcherFetch (loaders : List LoaderM) (bundle_version : Option Nat) :
    Except PyErr Nat :=
  fetchGo (loaders.filter (·.canLoad)) bundle_version

/-! # Supporting lemmas -/

/-- Sanity check of the SHA-224 embedding against the published test vector
for the empty message. -/
theorem sha224_empty_vector :
    hexStr (sha224 []) = "d14a028c2a3a2bc9476102bb288234c415a2b01f828ea62ac5b3e42f" := by
  decide

/-- Sanity check of the SHA-224 embedding against the published test vector
for the three-byte message `abc`. -/
theorem sha224_abc_vector :
    hexStr (sha224 (strBytes "abc")) =
      "23097d223405d8228642a477bda255b32aadbce4bda0b3f7e36c9da7" := by
  decide

theorem latestStep_le (acc : Int) (e : DirEnt) : acc ≤ latestStep acc e := by
  unfold latestStep
  split
  · split
    · split <;> omega
    · omega
  · omega

theorem foldl_latestStep_le (es : List DirEnt) : ∀ acc : Int, acc ≤ es.foldl latestStep acc := by
  induction es with
  | nil => intro acc; simp
  | cons e es ih =>
    intro acc
    calc acc ≤ latestStep acc e := latestStep_le acc e
    _ ≤ (es).foldl latestStep (latestStep acc e) := ih _
    _ = (e :: es).foldl latestStep acc := rfl

theorem foldl_latestStep_mem (es : List DirEnt) : ∀ acc : Int, ∀ e ∈ es, e.isDir = true →
    ∀ w, pyInt e.name = some w → w ≤ es.foldl latestStep acc := by
  induction es with
  | nil => intro _ e he; exact absurd he (List.not_mem_nil e)
  | cons e0 es ih =>
    intro acc e he hdir w hw
    rcases List.mem_cons.mp he with h | h
    · subst h
      have h1 : w ≤ latestStep acc e := by
        unfold latestStep
        rw [hdir, hw]
        simp only [if_true]
        split <;> omega
      calc w ≤ latestStep acc e := h1
      _ ≤ es.foldl latestStep (latestStep acc e) := foldl_latestStep_le es _
    · exact ih (latestStep acc e0) e h hdir w hw

theorem foldl_latestStep_zero (es : List DirEnt)
    (h : ∀ e ∈ es, e.isDir = true → ∀ v, pyInt e.name = some v → v ≤ 0) :
    es.foldl latestStep 0 = 0 := by
  induction es with
  | nil => rfl
  | cons e es ih =>
    have hstep : latestStep 0 e = 0 := by
      unfold latestStep
      split
      · rename_i hdir
        cases hv : pyInt e.name with
        | none => rfl
        | some v =>
          have := h e (List.mem_cons_self e es) hdir v hv
          simp only []
          split <;> omega
      · rfl
    show es.foldl latestStep (latestStep 0 e) = 0
    rw [hstep]
    exact ih (fun e2 he2 => h e2 (List.mem_cons_of_mem e he2))

/-! # Claim theorems -/

/-- C4: for a `Bundle` with no explicit version, resolution scans the
immediate subdirectories of the bundle's id directory, ignores without
error every entry whose name does not parse as a positive integer, and
selects the maximum parsed version; if the id directory is absent, or no
subdirectory name parses as a positive integer, it fails with
`BundleNotFound`. -/
theorem version_selection_picks_maximum :
    getBundleDirectoryLatest none = .error .bundleNotFound ∧
    (∀ es : List DirEnt,
      (∀ e ∈ es, e.isDir = true → ∀ v, pyInt e.name = some v → v ≤ 0) →
      getBundleDirectoryLatest (some es) = .error .bundleNotFound) ∧
    (∀ (es : List DirEnt) (v : Int), 0 < v → latestVersion es = v →
      es.any (fun e => e.name == toString v) = true →
      getBundleDirectoryLatest (some es) = .ok v.toNat ∧
      (∀ e ∈ es, e.isDir = true → ∀ w, pyInt e.name = some w → w ≤ v)) := by
  refine ⟨rfl, ?_, ?_⟩
  · intro es h
    have h0 : latestVersion es = 0 := foldl_latestStep_zero es h
    simp [getBundleDirectoryLatest, h0]
  · intro es v hv hmax hany
    constructor
    · have hne : ¬ (v ≤ 0) := by omega
      simp [getBundleDirectoryLatest, hmax, hne, hany]
    · intro e he hdir w hw
      have := foldl_latestStep_mem es 0 e he hdir w hw
      rw [show es.foldl latestStep 0 = latestVersion es from rfl, hmax] at this
      exact this

/-- Witness for C4: among sibling directories named 1, 2 and 10 (plus a
non-numeric directory and a file named 3), unversioned resolution selects
version 10. -/
theorem version_selection_picks_maximum_witness :
    getBundleDirectoryLatest
      (some [⟨"1", true⟩, ⟨"2", true⟩, ⟨"10", true⟩, ⟨"README", true⟩, ⟨"3", false⟩]) =
      .ok 10 :=
  (version_selection_picks_maximum.2.2
    [⟨"1", true⟩, ⟨"2", true⟩, ⟨"10", true⟩, ⟨"README", true⟩, ⟨"3", false⟩]
    10 (by decide) (by decide) (by decide)).1

/-- C5: when the bundle directory is not found locally and the `Bundle` was
constructed without remotes, `resolve` raises `UnboundLocalError` (the
local variable `remotes` is only assigned under `if self.remotes:`), so it
neither consults the project-local remotes directory nor propagates the
original `BundleNotFound`; with explicitly supplied remotes the fetcher is
invoked on them. -/
theorem resolve_unbound_local_without_remotes :
    (∀ (owmDirExists : Bool) (retrieved : List String)
       (fetchResult : List String → Except PyErr String),
      bundleResolve (.error .bundleNotFound) [] owmDirExists retrieved fetchResult =
        .error .unboundLocal) ∧
    (∀ (r : String) (rs : List String) (owmDirExists : Bool) (retrieved : List String)
       (fetchResult : List String → Except PyErr String),
      bundleResolve (.error .bundleNotFound) (r :: rs) owmDirExists retrieved fetchResult =
        fetchResult (r :: rs)) := by
  constructor
  · intro owmDirExists retrieved fetchResult
    rfl
  · intro r rs owmDirExists retrieved fetchResult
    rfl

/-- C9: `Remote.__eq__` is structural over the name and accessor-config
list, but `Remote.__hash__` computes `hash((self.name,
self.accessor_configs))` with a `list` inside the tuple, so hashing any
`Remote` raises `TypeError` — it is not a total operation. -/
theorem remote_hash_always_typeerror :
    (∀ r : RemoteV, remoteHash r = .error .typeError) ∧
    (∀ r1 r2 : RemoteV, remoteEq r1 r2 = true ↔
      (r1.name = r2.name ∧ r1.accessor_configs = r2.accessor_configs)) := by
  constructor
  · intro r
    rfl
  · intro r1 r2
    simp [remoteEq, Bool.and_eq_true, beq_iff_eq]

/-- Witness for C9: hashing the concrete remote named origin with one URL
accessor config raises `TypeError`, and that remote compares equal to
itself. -/
theorem remote_hash_always_typeerror_witness :
    remoteHash ⟨"origin", ["http://example.org/index.json"]⟩ = .error .typeError ∧
    remoteEq ⟨"origin", ["http://example.org/index.json"]⟩
      ⟨"origin", ["http://example.org/index.json"]⟩ = true :=
  ⟨remote_hash_always_typeerror.1 _,
   (remote_hash_always_typeerror.2 _ _).mpr ⟨rfl, rfl⟩⟩

/-- C1: the dependency-coverage loop uses `set.remove`, which raises
`KeyError` for an element not in the set.  With one included context,
no import edges (uncovered set empty) and one declared dependency containing
one context, the closure check raises `KeyError`, while the claim
(subtract the dependency's contexts; succeed when the uncovered set is
empty) predicts success. -/
theorem cover_with_dependencies_keyerror :
    closureCheck ["http://example.org/ctxA"] [] [["http://example.org/depCtx"]] =
      .error .keyError ∧
    closureCheckPerClaim ["http://example.org/ctxA"] [] [["http://example.org/depCtx"]] =
      .ok () := by
  decide

/-- C7: when every candidate loader fails (or none exists) and the bundle
version is an `int` — requested explicitly, or resolved from an earlier
candidate's `max(versions)` — `Fetcher.fetch` raises `TypeError` from the
`' at version ' + bundle_version` concatenation inside
`NoBundleLoader.__init__`, not a `NoBundleLoader`; only a version that is
still `None` yields a `NoBundleLoader`.  Moreover, once one candidate
resolves the unspecified version, later candidates are tried at that same
version instead of their own maximum (third conjunct: the second loader
has version 3 available and loadable, but is tried at version 2).
The last conjunct shows the fallback that does work: a non-capable loader
is skipped and the next capable one succeeds. -/
theorem fetch_exhaustion_raises_typeerror :
    fetcherFetch [] (some 2) = .error .typeError ∧
    fetcherFetch [] none = .error .noBundleLoader ∧
    fetcherFetch [⟨true, [2], fun _ => false⟩, ⟨true, [3], fun v => v == 3⟩] none =
      .error .typeError ∧
    fetcherFetch [⟨false, [2], fun _ => true⟩, ⟨true, [3], fun v => v == 3⟩] none =
      .ok 3 :=
  ⟨rfl, rfl, rfl, rfl⟩

/-- C2 counterexample: an `OSError` raised by `makedirs(graphs_directory)`
inside `_set_up_directories` happens before the `graphs/` subdirectory
exists, so `_cleanup_failed_install`'s `shutil.rmtree` raises
`FileNotFoundError`, and that cleanup error — not the original `OSError` —
propagates to the caller. -/
theorem install_cleanup_error_replaces_original :
    (installerInstall .atSetupGraphs [] []).1 = .error .fileNotFound ∧
    injectedError .atSetupGraphs = .osError ∧
    (installerInstall .atSetupGraphs [] []).1 ≠ .error (injectedError .atSetupGraphs) := by
  decide

/-- C2 amended: for an exception raised after the `graphs/` and `files/`
subdirectories have been created (file packaging, context packaging or the
manifest write), `install` removes both subdirectories, leaves the lock
file in place, and re-raises the same error unchanged. -/
theorem install_failure_cleanup_after_dirs_created (fp : FailPoint)
    (files ctxs : List String)
    (h : fp = .atFileHashes ∨ fp = .atContextData ∨ fp = .atManifest) :
    (installerInstall fp files ctxs).1 = .error (injectedError fp) ∧
    (installerInstall fp files ctxs).2.graphsDir = false ∧
    (installerInstall fp files ctxs).2.filesDir = false ∧
    (installerInstall fp files ctxs).2.lockFileExists = true := by
  rcases h with h | h | h <;> subst h <;>
    simp [installerInstall, runInstallSteps, cleanupFailedInstall]

/-- Witness for the amended C2: a failure while writing the file hashes is
cleaned up and re-raised unchanged, with the lock file still present. -/
theorem install_failure_cleanup_after_dirs_created_witness :
    (installerInstall .atFileHashes ["data.csv"] ["http://example.org/ctx"]).1 =
      .error (injectedError .atFileHashes) ∧
    (installerInstall .atFileHashes ["data.csv"] ["http://example.org/ctx"]).2.graphsDir =
      false ∧
    (installerInstall .atFileHashes ["data.csv"] ["http://example.org/ctx"]).2.filesDir =
      false ∧
    (installerInstall .atFileHashes ["data.csv"]
      ["http://example.org/ctx"]).2.lockFileExists = true :=
  install_failure_cleanup_after_dirs_created .atFileHashes ["data.csv"]
    ["http://example.org/ctx"] (Or.inl rfl)

theorem manifest_not_mem_graph_writes (ctxs : List String) :
    Artifact.manifestFile ∉
      ctxs.foldr (fun c acc =>
        Artifact.graphFile c :: Artifact.graphHashRec c :: Artifact.graphIndexRec c :: acc)
        [] := by
  induction ctxs with
  | nil => simp
  | cons c cs ih => simp [ih]

theorem manifest_not_mem_file_copies (files : List String) :
    Artifact.manifestFile ∉ files.map Artifact.fileCopy := by
  simp [List.mem_map]

theorem getLast?_cons_append_append {α : Type} (x : α) (l m : List α) (a : α) :
    (x :: (l ++ (m ++ [a]))).getLast? = some a := by
  rw [show x :: (l ++ (m ++ [a])) = (x :: (l ++ m)) ++ [a] by simp]
  exact List.getLast?_concat _

/-- C8: the manifest is the last artifact written by `_install` — it is
present exactly when the install ran to completion, it is the final entry
of the write trace on success, and any failing install leaves a staging
directory without a manifest. -/
theorem manifest_written_last (fp : FailPoint) (files ctxs : List String) :
    ((installerInstall fp files ctxs).2.manifestFile = true ↔ fp = .noFail) ∧
    (Artifact.manifestFile ∈ (installerInstall fp files ctxs).2.writeTrace ↔
      fp = .noFail) ∧
    (fp = .noFail →
      (installerInstall fp files ctxs).2.writeTrace.getLast? =
        some Artifact.manifestFile) ∧
    (∀ e, (installerInstall fp files ctxs).1 = .error e →
      (installerInstall fp files ctxs).2.manifestFile = false ∧
      Artifact.manifestFile ∉ (installerInstall fp files ctxs).2.writeTrace) := by
  cases fp <;>
    simp [installerInstall, runInstallSteps, cleanupFailedInstall,
      manifest_not_mem_graph_writes, manifest_not_mem_file_copies,
      getLast?_cons_append_append, List.getLast?_concat]

/-- Witness for C8: a completed install of one file and one context has the
manifest as the last written artifact. -/
theorem manifest_written_last_witness :
    (installerInstall .noFail ["data.csv"] ["http://example.org/ctx"]).2.writeTrace.getLast? =
      some Artifact.manifestFile :=
  (manifest_written_last .noFail ["data.csv"] ["http://example.org/ctx"]).2.2.1 rfl

/-- C6 counterexample: matching uses `re.match`, which anchors at the start
of the identifier only — glob `foo` (translated to regex `foo`) matches the
identifier `foobar`, while the claim's whole-string semantics rejects it;
and `?` is translated to `.?` (zero or one character), so glob `a?` matches
the identifier `a`, while the claim's exactly-one-character semantics
rejects it. -/
theorem glob_match_is_anchored_start_only :
    globURIPatternMatches "foo" "foobar" = some true ∧
    globMatchesPerClaim "foo" "foobar" = some false ∧
    globURIPatternMatches "a?" "a" = some true ∧
    globMatchesPerClaim "a?" "a" = some false := by
  decide

/-- C6 amended: the glob matcher translates `*` to `.*`, `?` to `.?` (zero
or one arbitrary character) and a leading `[!` of a class to `[^`, and
matches iff some initial segment of the identifier — not necessarily the
whole identifier — matches the translated expression; glob `foo*` matches
`foobar` and not `barfoo`, and an exact include matches only the identifier
equal to its (whitespace-stripped) configured value. -/
theorem glob_matcher_amended :
    globTranslate "foo*" = "foo.*" ∧
    globTranslate "a?" = "a.?" ∧
    globTranslate "[!ab]" = "[^ab]" ∧
    (∀ (p s : String) (ps : RSeq), compileRegex (globTranslate p) = some ps →
      (globURIPatternMatches p s = some true ↔
        ∃ n, n ≤ s.length ∧ rseqMatches ps (s.toList.take n) = true)) ∧
    globURIPatternMatches "foo*" "foobar" = some true ∧
    globURIPatternMatches "foo*" "barfoo" = some false ∧
    (∀ inc uri, uriIncludeFuncMatches inc uri = true ↔ uri = pyStrip inc) := by
  refine ⟨by decide, by decide, by decide, ?_, by decide, by decide, ?_⟩
  · intro p s ps h
    simp [globURIPatternMatches, h, pyReMatch, List.any_eq_true, List.mem_range,
      Nat.lt_succ_iff]
  · intro inc uri
    simp [uriIncludeFuncMatches]

/-- Witness for the amended C6: the prefix characterization instantiated at
glob `foo*` and identifier `foobar`, and the exact include with stripped
whitespace. -/
theorem glob_matcher_amended_witness :
    (globURIPatternMatches "foo*" "foobar" = some true ↔
      ∃ n, n ≤ "foobar".length ∧
        rseqMatches [(.lit 'f', .one), (.lit 'o', .one), (.lit 'o', .one), (.dot, .star)]
          ("foobar".toList.take n) = true) ∧
    uriIncludeFuncMatches " http://example.org/x " "http://example.org/x" = true :=
  ⟨glob_matcher_amended.2.2.2.1 "foo*" "foobar"
      [(.lit 'f', .one), (.lit 'o', .one), (.lit 'o', .one), (.dot, .star)] (by decide),
   (glob_matcher_amended.2.2.2.2.2.2 " http://example.org/x "
      "http://example.org/x").mpr (by decide)⟩

/-- Unfolding of `selectContexts` on a cons cell. -/
theorem selectContexts_cons (d : CtxDescriptor) (c : StoreCtx) (s : List StoreCtx) :
    selectContexts d (c :: s) =
      (if d.includes.any (fun inc => uriIncludeFuncMatches inc c.ident) then [c] else []) ++
      ((if d.patterns.any (fun ps => pyReMatch ps c.ident) then [c] else []) ++
        selectContexts d s) := by
  simp only [selectContexts, List.foldr_cons, List.append_assoc]

/-- C10: a context identifier matched by both an exact include and a
pattern of the same descriptor is yielded twice by `_select_contexts`, and
`_write_context_data` consequently writes two index records and two hash
records for that one context. -/
theorem dual_match_yields_two_records (d : CtxDescriptor) (ctx : StoreCtx)
    (rest : List StoreCtx)
    (hinc : d.includes.any (fun inc => uriIncludeFuncMatches inc ctx.ident) = true)
    (hpat : d.patterns.any (fun ps => pyReMatch ps ctx.ident) = true) :
    selectContexts d (ctx :: rest) = ctx :: ctx :: selectContexts d rest ∧
    graphsIndexBytes d (ctx :: rest) =
      graphIndexRecord ctx ++ (graphIndexRecord ctx ++ graphsIndexBytes d rest) ∧
    graphsHashesBytes d (ctx :: rest) =
      graphHashRecord ctx ++ (graphHashRecord ctx ++ graphsHashesBytes d rest) ∧
    (selectContexts d [ctx]).count ctx = 2 := by
  have hsel : ∀ tail : List StoreCtx,
      selectContexts d (ctx :: tail) = ctx :: ctx :: selectContexts d tail := by
    intro tail
    rw [selectContexts_cons, hinc, hpat]
    simp
  have hsel1 : selectContexts d [ctx] = [ctx, ctx] := by
    rw [hsel []]
    simp [selectContexts]
  refine ⟨hsel rest, ?_, ?_, ?_⟩
  · simp [graphsIndexBytes, hsel rest]
  · simp [graphsHashesBytes, hsel rest]
  · rw [hsel1]
    simp [List.count_cons]

/-- Witness for C10: with the include `c` and the compiled glob `c*`, the
store context with identifier `c` is selected twice and contributes two
index records. -/
theorem dual_match_yields_two_records_witness :
    selectContexts ⟨["c"], [[(.lit 'c', .one), (.dot, .star)]]⟩
      [⟨"c", []⟩] = [⟨"c", []⟩, ⟨"c", []⟩] ∧
    (selectContexts ⟨["c"], [[(.lit 'c', .one), (.dot, .star)]]⟩ [⟨"c", []⟩]).count
      ⟨"c", []⟩ = 2 :=
  ⟨(dual_match_yields_two_records ⟨["c"], [[(.lit 'c', .one), (.dot, .star)]]⟩
      ⟨"c", []⟩ [] (by decide) (by decide)).1,
   (dual_match_yields_two_records ⟨["c"], [[(.lit 'c', .one), (.dot, .star)]]⟩
      ⟨"c", []⟩ [] (by decide) (by decide)).2.2.2⟩

/-- The canonical serialization is invariant under permutation of the
triples: it sorts them. -/
theorem canonicalSerialization_perm {t1 t2 : List String} (h : t1.Perm t2) :
    canonicalSerialization t1 = canonicalSerialization t2 := by
  unfold canonicalSerialization
  have hs : t1.insertionSort (· ≤ ·) = t2.insertionSort (· ≤ ·) :=
    List.eq_of_perm_of_sorted
      ((List.perm_insertionSort _ t1).trans (h.trans (List.perm_insertionSort _ t2).symm))
      (List.sorted_insertionSort _ t1) (List.sorted_insertionSort _ t2)
  rw [hs]

/-- Contexts with the same identifier and the same triples up to order
produce identical hash and index records. -/
theorem graph_records_congr (a b : StoreCtx) (hid : a.ident = b.ident)
    (hp : a.triples.Perm b.triples) :
    graphHashRecord a = graphHashRecord b ∧ graphIndexRecord a = graphIndexRecord b := by
  have hd : contextDigest a.triples = contextDigest b.triples := by
    unfold contextDigest
    rw [canonicalSerialization_perm hp]
  constructor <;> simp [graphHashRecord, graphIndexRecord, graphFileName, hid, hd]

/-- `Forall₂` is compatible with appending pointwise-related lists. -/
theorem forall2_append_compat {α : Type} {r : α → α → Prop} {x1 x2 y1 y2 : List α}
    (hx : List.Forall₂ r x1 x2) (hy : List.Forall₂ r y1 y2) :
    List.Forall₂ r (x1 ++ y1) (x2 ++ y2) := by
  induction hx with
  | nil => simpa using hy
  | cons hab _ ih => exact List.Forall₂.cons hab ih

/-- Selection is pointwise compatible with stores that enumerate the same
identifiers in the same order with permuted triples. -/
theorem selectContexts_forall2 (d : CtxDescriptor) {s1 s2 : List StoreCtx}
    (h : List.Forall₂ (fun a b => a.ident = b.ident ∧ a.triples.Perm b.triples) s1 s2) :
    List.Forall₂ (fun a b => a.ident = b.ident ∧ a.triples.Perm b.triples)
      (selectContexts d s1) (selectContexts d s2) := by
  induction h with
  | nil => exact List.Forall₂.nil
  | @cons a b l1 l2 hab hrest ih =>
    rw [selectContexts_cons, selectContexts_cons, ← hab.1]
    refine forall2_append_compat ?_ (forall2_append_compat ?_ ih)
    · split_ifs with hcond
      · exact List.Forall₂.cons hab List.Forall₂.nil
      · exact List.Forall₂.nil
    · split_ifs with hcond
      · exact List.Forall₂.cons hab List.Forall₂.nil
      · exact List.Forall₂.nil

/-- Folding the record writers over pointwise-compatible selections gives
identical bytes. -/
theorem records_fold_congr {s1 s2 : List StoreCtx}
    (h : List.Forall₂ (fun a b => a.ident = b.ident ∧ a.triples.Perm b.triples) s1 s2) :
    s1.foldr (fun c acc => graphHashRecord c ++ acc) [] =
      s2.foldr (fun c acc => graphHashRecord c ++ acc) [] ∧
    s1.foldr (fun c acc => graphIndexRecord c ++ acc) [] =
      s2.foldr (fun c acc => graphIndexRecord c ++ acc) [] := by
  induction h with
  | nil => exact ⟨rfl, rfl⟩
  | @cons a b l1 l2 hab hrest ih =>
    have hrec := graph_records_congr a b hab.1 hab.2
    exact ⟨by simp [hrec.1, ih.1], by simp [hrec.2, ih.2]⟩

/-- C3 amended: the bytes of `graphs/index` and `graphs/hashes` are a
deterministic function of the store's context enumeration sequence and the
descriptor — in particular, canonicalization makes each context's digest
and graph file name independent of the order of its triples — and the bytes
of `files/hashes` are a deterministic function of the file selection
sequence.  (Record order, however, follows enumeration order; see the
counterexample.) -/
theorem install_output_deterministic_given_enumeration (d : CtxDescriptor)
    (s1 s2 : List StoreCtx)
    (h : List.Forall₂ (fun a b => a.ident = b.ident ∧ a.triples.Perm b.triples) s1 s2) :
    graphsIndexBytes d s1 = graphsIndexBytes d s2 ∧
    graphsHashesBytes d s1 = graphsHashesBytes d s2 := by
  have hsel := selectContexts_forall2 d h
  have hfold := records_fold_congr hsel
  exact ⟨hfold.2, hfold.1⟩

/-- Witness for the amended C3: one context whose two N-Triples lines are
enumerated in opposite orders by the two stores still yields byte-identical
index and hashes files. -/
theorem install_output_deterministic_given_enumeration_witness :
    graphsIndexBytes ⟨[], [[(.dot, .star)]]⟩
        [⟨"c", ["<s> <p> <o> .", "<a> <b> <c> ."]⟩] =
      graphsIndexBytes ⟨[], [[(.dot, .star)]]⟩
        [⟨"c", ["<a> <b> <c> .", "<s> <p> <o> ."]⟩] ∧
    graphsHashesBytes ⟨[], [[(.dot, .star)]]⟩
        [⟨"c", ["<s> <p> <o> .", "<a> <b> <c> ."]⟩] =
      graphsHashesBytes ⟨[], [[(.dot, .star)]]⟩
        [⟨"c", ["<a> <b> <c> .", "<s> <p> <o> ."]⟩] :=
  install_output_deterministic_given_enumeration ⟨[], [[(.dot, .star)]]⟩
    [⟨"c", ["<s> <p> <o> .", "<a> <b> <c> ."]⟩]
    [⟨"c", ["<a> <b> <c> .", "<s> <p> <o> ."]⟩]
    (List.Forall₂.cons ⟨rfl, by decide⟩ List.Forall₂.nil)

/-- C3 counterexample: two stores holding the same set of contexts but
enumerating them in different orders produce different `graphs/index` and
`graphs/hashes` bytes — the record order follows the store's internal
iteration order, so the output is not a function of the store contents
alone.  The pattern used is the compiled translation of glob `*`. -/
theorem install_output_depends_on_context_order :
    compileRegex (globTranslate "*") = some [(.dot, .star)] ∧
    ([⟨"a", []⟩, ⟨"b", []⟩] : List StoreCtx).Perm [⟨"b", []⟩, ⟨"a", []⟩] ∧
    graphsIndexBytes ⟨[], [[(.dot, .star)]]⟩ [⟨"a", []⟩, ⟨"b", []⟩] ≠
      graphsIndexBytes ⟨[], [[(.dot, .star)]]⟩ [⟨"b", []⟩, ⟨"a", []⟩] ∧
    graphsHashesBytes ⟨[], [[(.dot, .star)]]⟩ [⟨"a", []⟩, ⟨"b", []⟩] ≠
      graphsHashesBytes ⟨[], [[(.dot, .star)]]⟩ [⟨"b", []⟩, ⟨"a", []⟩] := by
  refine ⟨by decide, ?_, by decide, by decide⟩
  decide

end Owmeta
